import Mathlib

/-!
# ansible-galaxy-grabber: `Collection.Download`

A shallow embedding of `src/collections.go`.  The method `Collection.Download`
talks to the outside world through library calls (`os.MkdirAll`, the resty
`GET`, `os.Create`, `File.WriteString`, `semver.NewConstraint`,
`semver.NewVersion`, `Constraints.Check`, `grab.Get`, `isatty.IsTerminal`,
`slog.Error`, `fmt.Printf`).  Every such call is a field of a `World`; a run of
`Download` is the chronological list of the calls it made (`Run.trace`)
together with the way it ended (`Run.exit`).
-/

set_option linter.dupNamespace false

namespace GalaxyGrabber

/-- A Go `error` value, identified with its message. -/
abbrev GoError := String

/-- Modelled from the spec: one entry of `AllVersions` (the `CollectionMetadata`
type is declared outside `src/`); the code reads its `Version` and
`DownloadURL` fields. -/
structure VersionRecord where
  Version : String
  DownloadURL : String
deriving DecidableEq, Repr

/-- Modelled from the spec: the `Collection` level of `CollectionMetadata`,
holding the ordered version listing. -/
structure CollectionInfo where
  AllVersions : List VersionRecord
deriving DecidableEq, Repr

/-- Modelled from the spec: the `Data` level of `CollectionMetadata`. -/
structure MetadataData where
  Collection : CollectionInfo
deriving DecidableEq, Repr

/-- Modelled from the spec: the registry answer, read by the code as
`result.Data.Collection.AllVersions`. -/
structure CollectionMetadata where
  Data : MetadataData
deriving DecidableEq, Repr

/-- The receiver of `Download` (`type Collection struct`); a nil `*string`
constraint is `none`. -/
structure Collection where
  Namespace : String
  Collection : String
  Constraints : Option String
deriving DecidableEq, Repr

/-- What the code reads from a non-nil `*grab.Response`: `Size()` and
`Duration()` (nanoseconds). -/
structure Response where
  size : Int
  duration : Int
deriving DecidableEq, Repr

/-- The pair `(response, err)` returned by `grab.Get`: a response and no error,
a response together with its error, or no response at all (a nil
`*grab.Response`) with the error of the request that could not be built. -/
inductive GrabResult where
  | ok (response : Response)
  | failed (response : Response) (err : GoError)
  | noResponse (err : GoError)
deriving DecidableEq, Repr

/-- The arguments of one `fmt.Printf` call of `Download`; `colour` is true for
the variant printed through the `color` package. -/
inductive Line where
  | header (colour : Bool) (ns coll directory : String)
  | skipped (colour : Bool) (version link : String)
  | failedError (version link : String) (err : GoError)
  | failedStats (version link : String) (bytes duration : Int)
  | success (colour : Bool) (version link : String) (bytes duration : Int)
deriving DecidableEq, Repr

/-- One call made by `Download`, with its arguments. -/
inductive Event where
  | mkdirAll (directory : String)
  | get (ns name : String)
  | create (file : String)
  | writeString (file content : String)
  | close (file : String)
  | newConstraint (expr : String)
  | newVersion (version : String)
  | grabGet (directory link : String)
  | slogError (msg : String) (attrs : List (String × String))
  | printf (line : Line)
deriving DecidableEq, Repr

/-- How a run ends: `return err` (with `none` for `nil`), or the run-time panic
of a nil pointer dereference. -/
inductive Exit where
  | returned (err : Option GoError)
  | panicked
deriving DecidableEq, Repr

/-- A run of `Download`: the calls it made, oldest first, and how it ended. -/
structure Run where
  trace : List Event
  exit : Exit
deriving DecidableEq, Repr

/-- The library calls `Download` depends on.  `K` is `*semver.Constraints`, `V`
is `*semver.Version`.  `grabGet` also receives the calls made so far, so that
two downloads of one link may end differently.  `isTerminal` is the answer of
`isatty.IsTerminal(os.Stdout.Fd())`, the same at every call of one run.
`ToPrettyJSON` is `helpers.ToPrettyJSON`, a function of this repository outside
`src/`, and `pathJoin` is `path.Join`. -/
structure World (K V : Type) where
  pathJoin : List String → String
  isTerminal : Bool
  MkdirAll : String → Option GoError
  Get : String → String → Except GoError CollectionMetadata
  Create : String → Option GoError
  WriteString : String → String → Option GoError
  ToPrettyJSON : CollectionMetadata → String
  NewConstraint : String → Except GoError K
  NewVersion : String → Except GoError V
  Check : K → V → Bool
  grabGet : List Event → String → String → GrabResult

/-- The result of one pass through the body of the `for` loop: fall through to
the next version (also after `continue`), `return err`, or panic. -/
inductive Step where
  | next (trace : List Event)
  | ret (trace : List Event) (err : GoError)
  | panic (trace : List Event)
deriving DecidableEq, Repr

variable {K V : Type}

/-- Lines 102-116: `grab.Get(directory, link)` and the report of its result. -/
def grabStep (w : World K V) (c : Collection) (directory : String)
    (version : VersionRecord) (link : String) (tr : List Event) : Step :=
  let tr1 := tr ++ [Event.grabGet directory link]
  match w.grabGet tr directory link with
  | .failed response err =>
    let tr2 := tr1 ++ [Event.slogError "error downloading collection"
      [("namespace", c.Namespace), ("collection", c.Collection), ("error", err)]]
    if w.isTerminal then
      .next (tr2 ++ [Event.printf (.failedError version.Version link err)])
    else
      .next (tr2 ++ [Event.printf
        (.failedStats version.Version link response.size response.duration)])
  | .noResponse err =>
    let tr2 := tr1 ++ [Event.slogError "error downloading collection"
      [("namespace", c.Namespace), ("collection", c.Collection), ("error", err)]]
    if w.isTerminal then
      .next (tr2 ++ [Event.printf (.failedError version.Version link err)])
    else
      .panic tr2
  | .ok response =>
    .next (tr1 ++ [Event.printf
      (.success w.isTerminal version.Version link response.size response.duration)])

/-- Lines 85-116: the body of the loop for one `version`. -/
def loopBody (w : World K V) (c : Collection) (directory : String)
    (filter : Option K) (version : VersionRecord) (tr : List Event) : Step :=
  let link := "https://galaxy.ansible.com" ++ version.DownloadURL
  match filter with
  | some f =>
    let tr1 := tr ++ [Event.newVersion version.Version]
    match w.NewVersion version.Version with
    | .error err =>
      .ret (tr1 ++ [Event.slogError "error parsing version"
        [("namespace", c.Namespace), ("collection", c.Collection),
         ("version", version.Version), ("error", err)]]) err
    | .ok v =>
      if !w.Check f v then
        .next (tr1 ++ [Event.printf (.skipped w.isTerminal version.Version link)])
      else
        grabStep w c directory version link tr1
  | none => grabStep w c directory version link tr

/-- Leaving `Download` once `defer f.Close()` is registered: the file is
closed on the way out, on a return as on a panic. -/
def leave (tr : List Event) (file : String) (exit : Exit) : Run :=
  ⟨tr ++ [Event.close file], exit⟩

/-- Lines 84-119: the `for` loop over `AllVersions` and the final `return nil`. -/
def versionLoop (w : World K V) (c : Collection) (directory file : String)
    (filter : Option K) : List VersionRecord → List Event → Run
  | [], tr => leave tr file (.returned none)
  | version :: rest, tr =>
    match loopBody w c directory filter version tr with
    | .next tr1 => versionLoop w c directory file filter rest tr1
    | .ret tr1 err => leave tr1 file (.returned (some err))
    | .panic tr1 => leave tr1 file .panicked

/-- Lines 78-119: the header line, then the loop. -/
def report (w : World K V) (c : Collection) (directory file : String)
    (filter : Option K) (result : CollectionMetadata) (tr : List Event) : Run :=
  versionLoop w c directory file filter result.Data.Collection.AllVersions
    (tr ++ [Event.printf (.header w.isTerminal c.Namespace c.Collection directory)])

/-- The method `Collection.Download(client, destination)`. -/
def Download (w : World K V) (c : Collection) (destination : String) : Run :=
  let directory := w.pathJoin [destination, c.Namespace, c.Collection]
  let tr1 := [Event.mkdirAll directory]
  match w.MkdirAll directory with
  | some err =>
    ⟨tr1 ++ [Event.slogError "error creating directory"
      [("namespace", c.Namespace), ("collection", c.Collection), ("error", err)]],
     .returned (some err)⟩
  | none =>
    let tr2 := tr1 ++ [Event.get c.Namespace c.Collection]
    match w.Get c.Namespace c.Collection with
    | .error err =>
      ⟨tr2 ++ [Event.slogError "error downloading collection index"
        [("namespace", c.Namespace), ("collection", c.Collection), ("error", err)]],
       .returned (some err)⟩
    | .ok result =>
      let file := w.pathJoin [directory, "index.json"]
      let tr3 := tr2 ++ [Event.create file]
      match w.Create file with
      | some err =>
        ⟨tr3 ++ [Event.slogError "error opening collection index.json for output"
          [("namespace", c.Namespace), ("collection", c.Collection), ("error", err)]],
         .returned (some err)⟩
      | none =>
        let tr4 := tr3 ++ [Event.writeString file (w.ToPrettyJSON result)]
        match w.WriteString file (w.ToPrettyJSON result) with
        | some err =>
          leave (tr4 ++ [Event.slogError "error persisting index.json"
            [("namespace", c.Namespace), ("collection", c.Collection), ("error", err)]])
            file (.returned (some err))
        | none =>
          match c.Constraints with
          | none => report w c directory file none result tr4
          | some expr =>
            let tr5 := tr4 ++ [Event.newConstraint expr]
            match w.NewConstraint expr with
            | .error err =>
              leave (tr5 ++ [Event.slogError "error parsing constraints"
                [("namespace", c.Namespace), ("collection", c.Collection),
                 ("constraints", expr), ("error", err)]])
                file (.returned (some err))
            | .ok f => report w c directory file (some f) result tr5

/-! ## Observations on a trace -/

/-- A printed line that reports on one version (every line but the header). -/
def Line.isOutcome : Line → Bool
  | .header _ _ _ _ => false
  | _ => true

/-- The version string and the link a printed line names. -/
def Line.target : Line → Option (String × String)
  | .header _ _ _ _ => none
  | .skipped _ version link => some (version, link)
  | .failedError version link _ => some (version, link)
  | .failedStats version link _ _ => some (version, link)
  | .success _ version link _ _ => some (version, link)

/-- A line printed for a version that the filter rejected. -/
def Line.isSkipped : Line → Bool
  | .skipped _ _ _ => true
  | _ => false

/-- The per-version outcome lines of a trace, oldest first. -/
def outcomes (tr : List Event) : List Line :=
  tr.filterMap fun e =>
    match e with
    | .printf l => if l.isOutcome then some l else none
    | _ => none

/-- The `grab.Get` calls of a trace, as (directory, link), oldest first. -/
def downloads (tr : List Event) : List (String × String) :=
  tr.filterMap fun e =>
    match e with
    | .grabGet directory link => some (directory, link)
    | _ => none

/-- The registry queries of a trace. -/
def queries (tr : List Event) : List (String × String) :=
  tr.filterMap fun e =>
    match e with
    | .get ns name => some (ns, name)
    | _ => none

/-- Whether an event is a call to a capability (anything but logging and
printing). -/
def Event.isCall : Event → Bool
  | .slogError _ _ => false
  | .printf _ => false
  | _ => true

/-- The capability calls of a trace, oldest first. -/
def calls (tr : List Event) : List Event := tr.filter Event.isCall

/-- The link the code builds for a record (line 85). -/
def linkOf (r : VersionRecord) : String := "https://galaxy.ansible.com" ++ r.DownloadURL

/-- Whether the filter `f` lets the record through: its version parses and
`Check` holds. -/
def accepts (w : World K V) (f : K) (r : VersionRecord) : Bool :=
  match w.NewVersion r.Version with
  | .ok v => w.Check f v
  | .error _ => false

/-- Line 36: the directory the collection is stored in. -/
def directoryOf (w : World K V) (c : Collection) (destination : String) : String :=
  w.pathJoin [destination, c.Namespace, c.Collection]

/-- Line 57: the path of `index.json`. -/
def indexOf (w : World K V) (c : Collection) (destination : String) : String :=
  w.pathJoin [directoryOf w c destination, "index.json"]

/-- Steps 1 to 3 succeed and the registry answers with `md`: the directory is
created, the query returns `md`, and `index.json` is created and written. -/
def Stored (w : World K V) (c : Collection) (destination : String)
    (md : CollectionMetadata) : Prop :=
  w.MkdirAll (directoryOf w c destination) = none ∧
  w.Get c.Namespace c.Collection = .ok md ∧
  w.Create (indexOf w c destination) = none ∧
  w.WriteString (indexOf w c destination) (w.ToPrettyJSON md) = none

/-- Step 4 succeeds with the filter `filter`: no constraint and a nil filter, or
a constraint that parses to the filter. -/
def Filtered (w : World K V) (c : Collection) (filter : Option K) : Prop :=
  match c.Constraints with
  | none => filter = none
  | some expr => ∃ f, w.NewConstraint expr = .ok f ∧ filter = some f

/-- Whether the loop downloads the record under `filter`: always with a nil
filter, otherwise when the filter accepts it. -/
def passes (w : World K V) (filter : Option K) (r : VersionRecord) : Bool :=
  match filter with
  | none => true
  | some f => accepts w f r

/-- With a filter present the loop can read every version string of `vs`. -/
def Parses (w : World K V) (filter : Option K) (vs : List VersionRecord) : Prop :=
  filter = none ∨ ∀ r ∈ vs, ∃ v, w.NewVersion r.Version = .ok v

/-- Every download made in the run with trace `tr` was answered, or standard
output is a terminal: whenever `tr` holds a `grab.Get` call, that call, made
after the calls before it, did not return an error without a response. -/
def AnsweredIn (w : World K V) (tr : List Event) : Prop :=
  w.isTerminal = true ∨
  ∀ pre directory link post err, tr = pre ++ Event.grabGet directory link :: post →
    w.grabGet pre directory link ≠ .noResponse err

/-- Whether `semver.NewVersion` reads the version string of the record. -/
def readable (w : World K V) (r : VersionRecord) : Bool :=
  match w.NewVersion r.Version with
  | .ok _ => true
  | .error _ => false

/-- The records the loop gets past under `filter`: all of them with a nil
filter, otherwise those before the first version string that does not parse. -/
def reached (w : World K V) (filter : Option K) (vs : List VersionRecord) :
    List VersionRecord :=
  match filter with
  | none => vs
  | some _ => vs.takeWhile (readable w)

/-- The error the loop stops with under `filter`: the parse error of the first
version string that does not parse, if a filter is present and there is one. -/
def stopError (w : World K V) (filter : Option K) (vs : List VersionRecord) :
    Option GoError :=
  match filter with
  | none => none
  | some _ =>
    match vs.dropWhile (readable w) with
    | [] => none
    | r :: _ =>
      match w.NewVersion r.Version with
      | .error err => some err
      | .ok _ => none

/-- The calls of a preparation phase that succeeds with metadata `md`. -/
def setupTrace (w : World K V) (c : Collection) (destination : String)
    (md : CollectionMetadata) : List Event :=
  [Event.mkdirAll (directoryOf w c destination), Event.get c.Namespace c.Collection,
   Event.create (indexOf w c destination),
   Event.writeString (indexOf w c destination) (w.ToPrettyJSON md)] ++
  match c.Constraints with
  | none => []
  | some expr => [Event.newConstraint expr]

/-- The trace a pass through the loop body leaves behind. -/
def Step.trace : Step → List Event
  | .next tr => tr
  | .ret tr _ => tr
  | .panic tr => tr

/-- The steps of the preparation phase, in the order of the source. -/
inductive Setup where
  | createDirectory
  | fetchMetadata
  | createIndex
  | writeIndex
  | parseConstraint
deriving DecidableEq, Repr

/-- The preparation step an event belongs to, if any. -/
def Event.setup : Event → Option Setup
  | .mkdirAll _ => some .createDirectory
  | .get _ _ => some .fetchMetadata
  | .create _ => some .createIndex
  | .writeString _ _ => some .writeIndex
  | .newConstraint _ => some .parseConstraint
  | _ => none

/-- The preparation steps of a trace, oldest first. -/
def setups (tr : List Event) : List Setup := tr.filterMap Event.setup

/-! ## A concrete world, for evaluating runs -/

/-- A table standing for `semver.NewVersion` on the versions used below. -/
def sampleNewVersion : String → Except GoError (Nat × Nat × Nat)
  | "1.0.0" => .ok (1, 0, 0)
  | "2.0.0" => .ok (2, 0, 0)
  | "2.1.0" => .ok (2, 1, 0)
  | "3.0.0" => .ok (3, 0, 0)
  | "3.1.0" => .ok (3, 1, 0)
  | _ => .error "Invalid Semantic Version"

/-- A table standing for `semver.NewConstraint`: the one range used below is a
lower bound, everything else is rejected. -/
def sampleNewConstraint (expr : String) : Except GoError (Nat × Nat × Nat) :=
  if expr = ">=2.0.0" then .ok (2, 0, 0) else .error ("improper constraint: " ++ expr)

/-- The check of a lower bound: `v >= k` in the order of semantic versions. -/
def sampleCheck (k v : Nat × Nat × Nat) : Bool :=
  decide (k.1 < v.1) || (decide (k.1 = v.1) &&
    (decide (k.2.1 < v.2.1) || (decide (k.2.1 = v.2.1) && decide (k.2.2 ≤ v.2.2))))

/-- Joining path elements with a slash. -/
def sampleJoin : List String → String
  | [] => ""
  | [a] => a
  | a :: rest => a ++ "/" ++ sampleJoin rest

/-- A world in which storage never fails, the registry answers with `listing`
and `grab.Get` answers by link. -/
def sampleWorld (tty : Bool) (listing : List VersionRecord) (grab : String → GrabResult) :
    World (Nat × Nat × Nat) (Nat × Nat × Nat) where
  pathJoin := sampleJoin
  isTerminal := tty
  MkdirAll := fun _ => none
  Get := fun _ _ => .ok ⟨⟨⟨listing⟩⟩⟩
  Create := fun _ => none
  WriteString := fun _ _ => none
  ToPrettyJSON := fun md => String.intercalate "," (md.Data.Collection.AllVersions.map (·.Version))
  NewConstraint := sampleNewConstraint
  NewVersion := sampleNewVersion
  Check := sampleCheck
  grabGet := fun _ _ link => grab link

/-- A world like `sampleWorld` in which the preparation step `step` fails. -/
def brokenWorld (step : Setup) : World (Nat × Nat × Nat) (Nat × Nat × Nat) where
  pathJoin := sampleJoin
  isTerminal := false
  MkdirAll := fun _ => if step = .createDirectory then some "permission denied" else none
  Get := fun _ _ =>
    if step = .fetchMetadata then .error "connection refused" else .ok ⟨⟨⟨[]⟩⟩⟩
  Create := fun _ => if step = .createIndex then some "read-only file system" else none
  WriteString := fun _ _ => if step = .writeIndex then some "no space left on device" else none
  ToPrettyJSON := fun _ => "[]"
  NewConstraint := sampleNewConstraint
  NewVersion := sampleNewVersion
  Check := sampleCheck
  grabGet := fun _ _ _ => .ok ⟨0, 0⟩

/-- The collection `community.general` with no constraint. -/
def general : Collection := ⟨"community", "general", none⟩

/-- The collection `community.general` restricted to `>=2.0.0`. -/
def generalFrom2 : Collection := ⟨"community", "general", some ">=2.0.0"⟩

/-- The collection `community.general` with a constraint that is no range. -/
def generalNoRange : Collection := ⟨"community", "general", some "not-a-range"⟩

/-- A version record with a well-formed download path. -/
def archive (version : String) : VersionRecord :=
  ⟨version, "/download/community-general-" ++ version ++ ".tar.gz"⟩

/-- A version record whose download path makes the link unparseable (an invalid
port after the host), so that no request can be built from it. -/
def brokenLink (version : String) : VersionRecord := ⟨version, ":bad"⟩

/-- A listing whose second version string is no semantic version. -/
def listingUnreadable : List VersionRecord :=
  [archive "1.0.0", archive "two", archive "2.0.0"]

/-- A listing with two readable versions before an unreadable one. -/
def listingMixed : List VersionRecord :=
  [archive "2.0.0", archive "1.0.0", archive "two"]

/-- The listing of scenario B. -/
def listingB : List VersionRecord := [archive "1.0.0", archive "2.0.0", archive "2.1.0"]

/-- Every transfer succeeds. -/
def grabOk : String → GrabResult := fun _ => .ok ⟨1024, 2000000⟩

/-- The transfer of `link` ends with `result`, every other one succeeds. -/
def grabExcept (link : String) (result : GrabResult) : String → GrabResult :=
  fun l => if l = link then result else .ok ⟨1024, 2000000⟩

/-! ## Observations and concatenation -/

@[simp]
theorem outcomes_append (a b : List Event) :
    outcomes (a ++ b) = outcomes a ++ outcomes b := by
  simp [outcomes, List.filterMap_append]

@[simp]
theorem downloads_append (a b : List Event) :
    downloads (a ++ b) = downloads a ++ downloads b := by
  simp [downloads, List.filterMap_append]

@[simp]
theorem queries_append (a b : List Event) :
    queries (a ++ b) = queries a ++ queries b := by
  simp [queries, List.filterMap_append]

@[simp]
theorem calls_append (a b : List Event) :
    calls (a ++ b) = calls a ++ calls b := by
  simp [calls, List.filter_append]

@[simp]
theorem setups_append (a b : List Event) :
    setups (a ++ b) = setups a ++ setups b := by
  simp [setups, List.filterMap_append]

/-! ## One pass through the loop body -/

/-- The two ways `grab.Get` and its report can end: one download and one outcome
line that is not `skipped`, or, outside a terminal and on an error without a
response, a panic right after the call and its log entry. -/
theorem grabStep_cases (w : World K V) (c : Collection) (directory : String)
    (r : VersionRecord) (link : String) (tr : List Event) :
    (∃ tr1 line, grabStep w c directory r link tr = .next tr1 ∧
      outcomes tr1 = outcomes tr ++ [line] ∧
      downloads tr1 = downloads tr ++ [(directory, link)] ∧
      line.target = some (r.Version, link) ∧ line.isSkipped = false) ∨
    (w.isTerminal = false ∧ ∃ err more,
      w.grabGet tr directory link = .noResponse err ∧
      grabStep w c directory r link tr =
        .panic (tr ++ Event.grabGet directory link :: more)) := by
  unfold grabStep
  cases hg : w.grabGet tr directory link with
  | ok response =>
    left
    refine ⟨_, Line.success w.isTerminal r.Version link response.size response.duration,
      rfl, ?_, ?_, rfl, rfl⟩ <;> simp [outcomes, downloads, Line.isOutcome]
  | failed response err =>
    left
    cases ht : w.isTerminal
    · refine ⟨_, Line.failedStats r.Version link response.size response.duration,
        rfl, ?_, ?_, rfl, rfl⟩ <;> simp [outcomes, downloads, Line.isOutcome]
    · refine ⟨_, Line.failedError r.Version link err,
        rfl, ?_, ?_, rfl, rfl⟩ <;> simp [outcomes, downloads, Line.isOutcome]
  | noResponse err =>
    cases ht : w.isTerminal
    · right
      refine ⟨rfl, err, [Event.slogError "error downloading collection"
        [("namespace", c.Namespace), ("collection", c.Collection), ("error", err)]], rfl, ?_⟩
      simp
    · left
      refine ⟨_, Line.failedError r.Version link err,
        rfl, ?_, ?_, rfl, rfl⟩ <;> simp [outcomes, downloads, Line.isOutcome]

/-- One pass through the loop body for a record whose version string the loop
can read: it falls through to the next version, leaving exactly one outcome line
for the record (`skipped` without a download when the filter rejects it, a
download and its report otherwise), or it panics right after a download that
returned an error without a response outside a terminal. -/
theorem loopBody_cases (w : World K V) (c : Collection) (directory : String)
    (filter : Option K) (r : VersionRecord) (tr : List Event)
    (hp : filter = none ∨ ∃ v, w.NewVersion r.Version = .ok v) :
    (∃ tr1 line, loopBody w c directory filter r tr = .next tr1 ∧
      outcomes tr1 = outcomes tr ++ [line] ∧
      downloads tr1 = downloads tr ++
        (if passes w filter r then [(directory, linkOf r)] else []) ∧
      line.target = some (r.Version, linkOf r) ∧
      line.isSkipped = !passes w filter r ∧
      (passes w filter r = false → line = .skipped w.isTerminal r.Version (linkOf r))) ∨
    (w.isTerminal = false ∧ ∃ hist err more,
      w.grabGet hist directory (linkOf r) = .noResponse err ∧
      loopBody w c directory filter r tr =
        .panic (hist ++ Event.grabGet directory (linkOf r) :: more)) := by
  cases filter with
  | none =>
    rcases grabStep_cases w c directory r (linkOf r) tr with
      ⟨tr1, line, h1, h2, h3, h4, h5⟩ | ⟨ht, err, more, hg, h1⟩
    · left
      refine ⟨tr1, line, ?_, h2, ?_, h4, ?_, ?_⟩
      · simpa [loopBody, linkOf] using h1
      · simpa [passes] using h3
      · simpa [passes] using h5
      · simp [passes]
    · right
      refine ⟨ht, tr, err, more, hg, ?_⟩
      simpa [loopBody, linkOf] using h1
  | some f =>
    rcases hp with hp | ⟨v, hv⟩
    · cases hp
    · cases hc : w.Check f v
      · left
        refine ⟨tr ++ [Event.newVersion r.Version] ++
          [Event.printf (Line.skipped w.isTerminal r.Version (linkOf r))],
          Line.skipped w.isTerminal r.Version (linkOf r), ?_, ?_, ?_, rfl, ?_, ?_⟩
        · simp [loopBody, hv, hc, linkOf]
        · simp [outcomes, Line.isOutcome]
        · simp [downloads, passes, accepts, hv, hc]
        · simp [passes, accepts, hv, hc, Line.isSkipped]
        · simp
      · rcases grabStep_cases w c directory r (linkOf r)
            (tr ++ [Event.newVersion r.Version]) with
          ⟨tr1, line, h1, h2, h3, h4, h5⟩ | ⟨ht, err, more, hg, h1⟩
        · left
          refine ⟨tr1, line, ?_, ?_, ?_, h4, ?_, ?_⟩
          · simpa [loopBody, hv, hc, linkOf] using h1
          · simpa [outcomes] using h2
          · simpa [downloads, passes, accepts, hv, hc] using h3
          · simpa [passes, accepts, hv, hc] using h5
          · simp [passes, accepts, hv, hc]
        · right
          refine ⟨ht, tr ++ [Event.newVersion r.Version], err, more, hg, ?_⟩
          simpa [loopBody, hv, hc, linkOf] using h1

/-! ## The loop -/

/-- In a run all of whose downloads were answered, the loop gets past any
initial stretch `pre` of the listing whose version strings it can read: it
leaves one outcome line per record of `pre`, in order, downloads exactly the
records the filter lets through and prints `skipped` for exactly the others. -/
theorem versionLoop_reach (w : World K V) (c : Collection) (directory file : String)
    (filter : Option K) (pre rest : List VersionRecord) :
    ∀ tr : List Event, Parses w filter pre →
    AnsweredIn w (versionLoop w c directory file filter (pre ++ rest) tr).trace →
    ∃ tr1, versionLoop w c directory file filter (pre ++ rest) tr =
        versionLoop w c directory file filter rest tr1 ∧
      (outcomes tr1).map Line.target =
        (outcomes tr).map Line.target ++ pre.map (fun r => some (r.Version, linkOf r)) ∧
      downloads tr1 = downloads tr ++
        (pre.filter (passes w filter)).map (fun r => (directory, linkOf r)) ∧
      (outcomes tr1).filter Line.isSkipped = (outcomes tr).filter Line.isSkipped ++
        (pre.filter (fun r => !passes w filter r)).map
          (fun r => Line.skipped w.isTerminal r.Version (linkOf r)) ∧
      (outcomes tr1).map Line.isSkipped =
        (outcomes tr).map Line.isSkipped ++ pre.map (fun r => !passes w filter r) := by
  induction pre with
  | nil => intro tr _ _; exact ⟨tr, rfl, by simp, by simp, by simp, by simp⟩
  | cons r pre ih =>
    intro tr hp hs
    have hr : filter = none ∨ ∃ v, w.NewVersion r.Version = .ok v := by
      rcases hp with h | h
      · exact Or.inl h
      · exact Or.inr (h r (List.mem_cons_self _ _))
    have hpre : Parses w filter pre := by
      rcases hp with h | h
      · exact Or.inl h
      · exact Or.inr (fun x hx => h x (List.mem_cons_of_mem _ hx))
    rcases loopBody_cases w c directory filter r tr hr with
      ⟨tr1, line, h1, h2, h3, h4, h5, h6⟩ | ⟨ht, hist, err, more, hg, h1⟩
    · have hstep : versionLoop w c directory file filter (r :: pre ++ rest) tr =
          versionLoop w c directory file filter (pre ++ rest) tr1 := by
        simp [versionLoop, h1]
      rw [hstep] at hs
      obtain ⟨tr2, g1, g2, g3, g4, g5⟩ := ih tr1 hpre hs
      refine ⟨tr2, ?_, ?_, ?_, ?_, ?_⟩
      · rw [hstep, g1]
      · rw [g2, h2]; simp [h4]
      · rw [g3, h3]
        cases hpass : passes w filter r <;> simp [List.filter_cons, hpass]
      · rw [g4, h2]
        cases hpass : passes w filter r
        · simp [List.filter_cons, hpass, h6 hpass, Line.isSkipped]
        · have : line.isSkipped = false := by simpa [hpass] using h5
          simp [List.filter_cons, hpass, this]
      · rw [g5, h2]; simp [h5]
    · exfalso
      have hstep : (versionLoop w c directory file filter (r :: pre ++ rest) tr).trace =
          hist ++ Event.grabGet directory (linkOf r) :: (more ++ [Event.close file]) := by
        simp [versionLoop, h1, leave]
      rcases hs with h | h
      · rw [ht] at h; cases h
      · exact h hist directory (linkOf r) _ err hstep hg

/-- Closing the file on the way out adds no outcome. -/
@[simp]
theorem outcomes_leave (tr : List Event) (file : String) (exit : Exit) :
    outcomes (leave tr file exit).trace = outcomes tr := by
  simp [leave, outcomes]

/-- Closing the file on the way out adds no download. -/
@[simp]
theorem downloads_leave (tr : List Event) (file : String) (exit : Exit) :
    downloads (leave tr file exit).trace = downloads tr := by
  simp [leave, downloads]

@[simp]
theorem exit_leave (tr : List Event) (file : String) (exit : Exit) :
    (leave tr file exit).exit = exit := rfl

/-! ## The preparation phase -/

/-- When steps 1 to 4 succeed, `Download` is the report phase run after the
calls of the preparation phase. -/
theorem Download_report (w : World K V) (c : Collection) (destination : String)
    (md : CollectionMetadata) (filter : Option K)
    (h123 : Stored w c destination md) (h4 : Filtered w c filter) :
    Download w c destination =
      report w c (directoryOf w c destination) (indexOf w c destination) filter md
        (setupTrace w c destination md) := by
  obtain ⟨h1, h2, h3, h5⟩ := h123
  simp only [directoryOf, indexOf] at h1 h2 h3 h5
  unfold Download
  simp only [h1, h2, h3, h5]
  unfold Filtered at h4
  cases hc : c.Constraints with
  | none =>
    rw [hc] at h4
    subst h4
    simp [setupTrace, hc, directoryOf, indexOf]
  | some expr =>
    rw [hc] at h4
    obtain ⟨f, hf, rfl⟩ := h4
    simp [setupTrace, hc, hf, directoryOf, indexOf]

/-- The preparation phase prints no outcome and downloads nothing. -/
theorem setupTrace_quiet (w : World K V) (c : Collection) (destination : String)
    (md : CollectionMetadata) :
    outcomes (setupTrace w c destination md) = [] ∧
    downloads (setupTrace w c destination md) = [] := by
  cases hc : c.Constraints <;> simp [setupTrace, hc, outcomes, downloads]

/-! ## The preparation steps are never repeated -/

theorem setups_grabStep (w : World K V) (c : Collection) (directory : String)
    (r : VersionRecord) (link : String) (tr : List Event) :
    setups (grabStep w c directory r link tr).trace = setups tr := by
  unfold grabStep
  split <;> (try split) <;> simp [Step.trace, setups, Event.setup]

theorem setups_loopBody (w : World K V) (c : Collection) (directory : String)
    (filter : Option K) (r : VersionRecord) (tr : List Event) :
    setups (loopBody w c directory filter r tr).trace = setups tr := by
  unfold loopBody
  split
  · split
    · simp [Step.trace, setups, Event.setup]
    · split
      · simp [Step.trace, setups, Event.setup]
      · rw [setups_grabStep]; simp [setups, Event.setup]
  · exact setups_grabStep w c directory r _ tr

theorem setups_versionLoop (w : World K V) (c : Collection) (directory file : String)
    (filter : Option K) (vs : List VersionRecord) :
    ∀ tr : List Event,
      setups (versionLoop w c directory file filter vs tr).trace = setups tr := by
  induction vs with
  | nil => intro tr; simp [versionLoop, leave, setups, Event.setup]
  | cons r vs ih =>
    intro tr
    have hb := setups_loopBody w c directory filter r tr
    unfold versionLoop
    split
    · rename_i tr1 h1
      rw [ih tr1, ← hb, h1]; rfl
    · rename_i tr1 err h1
      rw [← hb, h1]; simp [leave, setups, Event.setup, Step.trace]
    · rename_i tr1 h1
      rw [← hb, h1]; simp [leave, setups, Event.setup, Step.trace]

/-! ## Runs whose preparation succeeds -/

/-- A version string is readable exactly when `semver.NewVersion` returns a
version for it. -/
theorem readable_true (w : World K V) (r : VersionRecord) (h : readable w r = true) :
    ∃ v, w.NewVersion r.Version = .ok v := by
  unfold readable at h
  cases hv : w.NewVersion r.Version with
  | ok v => exact ⟨v, rfl⟩
  | error err => rw [hv] at h; cases h

/-- A version string is unreadable exactly when `semver.NewVersion` returns an
error for it. -/
theorem readable_false (w : World K V) (r : VersionRecord) (h : readable w r = false) :
    ∃ err, w.NewVersion r.Version = .error err := by
  unfold readable at h
  cases hv : w.NewVersion r.Version with
  | ok v => rw [hv] at h; cases h
  | error err => exact ⟨err, rfl⟩

/-- The first record left by `dropWhile` fails the test. -/
theorem dropWhile_head_false {α : Type} (p : α → Bool) :
    ∀ (l : List α) (r : α) (rest : List α), l.dropWhile p = r :: rest → p r = false := by
  intro l
  induction l with
  | nil => intro r rest h; cases h
  | cons a l ih =>
    intro r rest h
    cases hp : p a
    · rw [List.dropWhile_cons, hp] at h
      simp only [Bool.false_eq_true, if_false, List.cons.injEq] at h
      rw [← h.1]; exact hp
    · rw [List.dropWhile_cons, hp] at h
      simp only [if_true] at h
      exact ih r rest h

/-- When steps 1 to 4 succeed and every download of the run was answered,
`Download` leaves one outcome line per record it gets past, in order, downloads
exactly those of them the filter lets through, prints `skipped` for exactly the
others, and returns nil or the parse error of the first version string it
cannot read. -/
theorem Download_reached (w : World K V) (c : Collection) (destination : String)
    (md : CollectionMetadata) (filter : Option K)
    (h123 : Stored w c destination md) (h4 : Filtered w c filter)
    (hs : AnsweredIn w (Download w c destination).trace) :
    (Download w c destination).exit =
      .returned (stopError w filter md.Data.Collection.AllVersions) ∧
    (outcomes (Download w c destination).trace).map Line.target =
      (reached w filter md.Data.Collection.AllVersions).map
        (fun r => some (r.Version, linkOf r)) ∧
    downloads (Download w c destination).trace =
      ((reached w filter md.Data.Collection.AllVersions).filter (passes w filter)).map
        (fun r => (directoryOf w c destination, linkOf r)) ∧
    (outcomes (Download w c destination).trace).filter Line.isSkipped =
      ((reached w filter md.Data.Collection.AllVersions).filter
        (fun r => !passes w filter r)).map
        (fun r => Line.skipped w.isTerminal r.Version (linkOf r)) ∧
    (outcomes (Download w c destination).trace).map Line.isSkipped =
      (reached w filter md.Data.Collection.AllVersions).map
        (fun r => !passes w filter r) := by
  rw [Download_report w c destination md filter h123 h4] at hs ⊢
  unfold report at hs ⊢
  have hq := setupTrace_quiet w c destination md
  have hh : outcomes [Event.printf (.header w.isTerminal c.Namespace c.Collection
      (directoryOf w c destination))] = [] := by simp [outcomes, Line.isOutcome]
  have hh2 : downloads [Event.printf (.header w.isTerminal c.Namespace c.Collection
      (directoryOf w c destination))] = [] := by simp [downloads]
  have hsplit : reached w filter md.Data.Collection.AllVersions ++
      (match filter with
        | none => []
        | some _ => md.Data.Collection.AllVersions.dropWhile (readable w)) =
      md.Data.Collection.AllVersions := by
    cases filter with
    | none => simp [reached]
    | some f => simp [reached, List.takeWhile_append_dropWhile]
  have hparse : Parses w filter (reached w filter md.Data.Collection.AllVersions) := by
    cases filter with
    | none => exact Or.inl rfl
    | some f =>
      refine Or.inr (fun r hr => readable_true w r ?_)
      exact List.mem_takeWhile_imp hr
  rw [← hsplit] at hs
  obtain ⟨tr1, g1, g2, g3, g4, g5⟩ :=
    versionLoop_reach w c (directoryOf w c destination) (indexOf w c destination) filter
      (reached w filter md.Data.Collection.AllVersions) _ _ hparse hs
  rw [hsplit] at g1
  simp only [outcomes_append, downloads_append, hq.1, hq.2, hh, hh2, List.append_nil,
    List.map_nil, List.filter_nil, List.nil_append] at g2 g3 g4 g5
  rw [g1]
  cases filter with
  | none =>
    refine ⟨rfl, ?_, ?_, ?_, ?_⟩
    · simpa [versionLoop] using g2
    · simpa [versionLoop] using g3
    · simpa [versionLoop] using g4
    · simpa [versionLoop] using g5
  | some f =>
    cases hrest : md.Data.Collection.AllVersions.dropWhile (readable w) with
    | nil =>
      refine ⟨?_, ?_, ?_, ?_, ?_⟩
      · simp [versionLoop, stopError, hrest]
      · simpa [versionLoop] using g2
      · simpa [versionLoop] using g3
      · simpa [versionLoop] using g4
      · simpa [versionLoop] using g5
    | cons r more =>
      obtain ⟨err, he⟩ := readable_false w r (dropWhile_head_false _ _ r more hrest)
      have hrun : versionLoop w c (directoryOf w c destination) (indexOf w c destination)
          (some f) (r :: more) tr1 =
          leave (tr1 ++ [Event.newVersion r.Version] ++
            [Event.slogError "error parsing version"
              [("namespace", c.Namespace), ("collection", c.Collection),
               ("version", r.Version), ("error", err)]])
            (indexOf w c destination) (.returned (some err)) := by
        simp [versionLoop, loopBody, he]
      have e1 : outcomes [Event.newVersion r.Version] = [] := rfl
      have e2 : outcomes [Event.slogError "error parsing version"
          [("namespace", c.Namespace), ("collection", c.Collection),
           ("version", r.Version), ("error", err)]] = [] := rfl
      have e3 : downloads [Event.newVersion r.Version] = [] := rfl
      have e4 : downloads [Event.slogError "error parsing version"
          [("namespace", c.Namespace), ("collection", c.Collection),
           ("version", r.Version), ("error", err)]] = [] := rfl
      rw [hrun]
      simp only [outcomes_leave, downloads_leave, exit_leave, outcomes_append,
        downloads_append, e1, e2, e3, e4, List.append_nil]
      refine ⟨?_, g2, g3, g4, g5⟩
      simp [stopError, hrest, he]

/-- When the loop can read every version string it has to, it gets past the
whole listing and stops with no error. -/
theorem reached_all (w : World K V) (filter : Option K) (vs : List VersionRecord)
    (hp : Parses w filter vs) : reached w filter vs = vs ∧ stopError w filter vs = none := by
  cases filter with
  | none => exact ⟨rfl, rfl⟩
  | some f =>
    rcases hp with hp | hp
    · cases hp
    · have hall : ∀ x ∈ vs, readable w x = true := by
        intro x hx
        obtain ⟨v, hv⟩ := hp x hx
        simp [readable, hv]
      have h1 : vs.takeWhile (readable w) = vs := List.takeWhile_eq_self_iff.mpr hall
      have h2 : vs.dropWhile (readable w) = [] := List.dropWhile_eq_nil_iff.mpr hall
      exact ⟨h1, by simp [stopError, h2]⟩

/-- In a sample world whose transfers all succeed except that of `link`, every
download of a run that never requests `link` was answered. -/
theorem answeredIn_sample (tty : Bool) (listing : List VersionRecord) (link : String)
    (result : GrabResult) (tr : List Event)
    (h : link ∉ (downloads tr).map Prod.snd) :
    AnsweredIn (sampleWorld tty listing (grabExcept link result)) tr := by
  refine Or.inr ?_
  intro pre directory l post err hsplit
  have hm : l ∈ (downloads tr).map Prod.snd := by
    rw [hsplit]; simp [downloads]
  have hne : l ≠ link := by
    intro heq; rw [heq] at hm; exact h hm
  simp [sampleWorld, grabExcept, hne]

/-! ## The claims -/

/-- C1, as stated, fails: with the constraint `>=2.0.0` and the listing
`1.0.0`, `two`, `2.0.0`, steps 1 to 4 succeed, and yet the run stops at the
unreadable second version with a single outcome line for three records. -/
theorem C1_unreadable_version_leaves_records_without_outcome :
    Stored (sampleWorld true listingUnreadable grabOk) generalFrom2 "out"
      ⟨⟨⟨listingUnreadable⟩⟩⟩ ∧
    Filtered (sampleWorld true listingUnreadable grabOk) generalFrom2 (some (2, 0, 0)) ∧
    listingUnreadable.length = 3 ∧
    outcomes (Download (sampleWorld true listingUnreadable grabOk) generalFrom2 "out").trace =
      [Line.skipped true "1.0.0"
        "https://galaxy.ansible.com/download/community-general-1.0.0.tar.gz"] :=
  ⟨⟨rfl, rfl, rfl, rfl⟩, ⟨(2, 0, 0), rfl, rfl⟩, rfl, by decide⟩

/-- C1, as amended: whenever steps 1 to 4 succeed and no download made in the run
comes back with an error and no response while standard output is not a
terminal, `Download` emits exactly one outcome per record of `AllVersions` up to
the first record whose version string a present constraint cannot read, the
i-th outcome carrying the i-th record's version string and the link
`https://galaxy.ansible.com` followed by its `DownloadURL`; so with no
constraint, or with every version string parsing, it returns nil having emitted
one outcome per record of `AllVersions`, in the registry's order. -/
theorem C1_one_outcome_per_record (w : World K V) (c : Collection) (destination : String)
    (md : CollectionMetadata) (filter : Option K)
    (h123 : Stored w c destination md) (h4 : Filtered w c filter)
    (hs : AnsweredIn w (Download w c destination).trace) :
    (outcomes (Download w c destination).trace).length =
      (reached w filter md.Data.Collection.AllVersions).length ∧
    (outcomes (Download w c destination).trace).map Line.target =
      (reached w filter md.Data.Collection.AllVersions).map
        (fun r => some (r.Version, "https://galaxy.ansible.com" ++ r.DownloadURL)) ∧
    (Parses w filter md.Data.Collection.AllVersions →
      (Download w c destination).exit = .returned none ∧
      (outcomes (Download w c destination).trace).length =
        md.Data.Collection.AllVersions.length ∧
      (outcomes (Download w c destination).trace).map Line.target =
        md.Data.Collection.AllVersions.map
          (fun r => some (r.Version, "https://galaxy.ansible.com" ++ r.DownloadURL))) := by
  obtain ⟨h1, h2, _⟩ := Download_reached w c destination md filter h123 h4 hs
  have hlen : (outcomes (Download w c destination).trace).length =
      (reached w filter md.Data.Collection.AllVersions).length := by
    have := congrArg List.length h2
    simpa using this
  refine ⟨hlen, h2, ?_⟩
  intro hp
  obtain ⟨e1, e2⟩ := reached_all w filter md.Data.Collection.AllVersions hp
  rw [e1] at hlen h2
  rw [e2] at h1
  exact ⟨h1, hlen, h2⟩

/-- C1, witness: scenario B through a pipe, in a world where `grab.Get` returns
no response for a link the run never requests. -/
theorem C1_one_outcome_per_record_witness :
    (Download (sampleWorld false listingB
      (grabExcept "https://galaxy.ansible.com:bad" (.noResponse "invalid port")))
      generalFrom2 "out").exit = .returned none ∧
    (outcomes (Download (sampleWorld false listingB
      (grabExcept "https://galaxy.ansible.com:bad" (.noResponse "invalid port")))
      generalFrom2 "out").trace).length = 3 ∧
    (outcomes (Download (sampleWorld false listingB
      (grabExcept "https://galaxy.ansible.com:bad" (.noResponse "invalid port")))
      generalFrom2 "out").trace).map Line.target =
      [some ("1.0.0", "https://galaxy.ansible.com/download/community-general-1.0.0.tar.gz"),
       some ("2.0.0", "https://galaxy.ansible.com/download/community-general-2.0.0.tar.gz"),
       some ("2.1.0", "https://galaxy.ansible.com/download/community-general-2.1.0.tar.gz")] ∧
    (outcomes (Download (sampleWorld false listingMixed
      (grabExcept "https://galaxy.ansible.com:bad" (.noResponse "invalid port")))
      generalFrom2 "out").trace).map Line.target =
      [some ("2.0.0", "https://galaxy.ansible.com/download/community-general-2.0.0.tar.gz"),
       some ("1.0.0", "https://galaxy.ansible.com/download/community-general-1.0.0.tar.gz")] :=
  ⟨((C1_one_outcome_per_record (sampleWorld false listingB
      (grabExcept "https://galaxy.ansible.com:bad" (.noResponse "invalid port")))
    generalFrom2 "out" ⟨⟨⟨listingB⟩⟩⟩ (some (2, 0, 0)) ⟨rfl, rfl, rfl, rfl⟩
    ⟨(2, 0, 0), rfl, rfl⟩
    (answeredIn_sample false listingB "https://galaxy.ansible.com:bad"
      (.noResponse "invalid port") _ (by decide))).2.2
    (Or.inr (by
      intro r hr
      simp only [listingB, List.mem_cons, List.mem_singleton, List.not_mem_nil, or_false] at hr
      rcases hr with rfl | rfl | rfl <;> exact ⟨_, rfl⟩))).1,
   ((C1_one_outcome_per_record (sampleWorld false listingB
      (grabExcept "https://galaxy.ansible.com:bad" (.noResponse "invalid port")))
    generalFrom2 "out" ⟨⟨⟨listingB⟩⟩⟩ (some (2, 0, 0)) ⟨rfl, rfl, rfl, rfl⟩
    ⟨(2, 0, 0), rfl, rfl⟩
    (answeredIn_sample false listingB "https://galaxy.ansible.com:bad"
      (.noResponse "invalid port") _ (by decide))).2.2
    (Or.inr (by
      intro r hr
      simp only [listingB, List.mem_cons, List.mem_singleton, List.not_mem_nil, or_false] at hr
      rcases hr with rfl | rfl | rfl <;> exact ⟨_, rfl⟩))).2.1,
   ((C1_one_outcome_per_record (sampleWorld false listingB
      (grabExcept "https://galaxy.ansible.com:bad" (.noResponse "invalid port")))
    generalFrom2 "out" ⟨⟨⟨listingB⟩⟩⟩ (some (2, 0, 0)) ⟨rfl, rfl, rfl, rfl⟩
    ⟨(2, 0, 0), rfl, rfl⟩
    (answeredIn_sample false listingB "https://galaxy.ansible.com:bad"
      (.noResponse "invalid port") _ (by decide))).2.2
    (Or.inr (by
      intro r hr
      simp only [listingB, List.mem_cons, List.mem_singleton, List.not_mem_nil, or_false] at hr
      rcases hr with rfl | rfl | rfl <;> exact ⟨_, rfl⟩))).2.2,
   (C1_one_outcome_per_record (sampleWorld false listingMixed
      (grabExcept "https://galaxy.ansible.com:bad" (.noResponse "invalid port")))
    generalFrom2 "out" ⟨⟨⟨listingMixed⟩⟩⟩ (some (2, 0, 0)) ⟨rfl, rfl, rfl, rfl⟩
    ⟨(2, 0, 0), rfl, rfl⟩
    (answeredIn_sample false listingMixed "https://galaxy.ansible.com:bad"
      (.noResponse "invalid port") _ (by decide))).2.1⟩

/-- C2, the failing input: standard output is not a terminal, the constraint
`>=2.0.0` accepts both `3.0.0` and `3.1.0`, and the download of `3.0.0` fails
without a response (no request can be built from its link).  The run panics
while reporting the failure: no outcome line is emitted, the download of `3.1.0`
is never attempted and `Download` does not return. -/
theorem C2_failure_without_response_is_fatal :
    Filtered (sampleWorld false [brokenLink "3.0.0", archive "3.1.0"]
      (grabExcept "https://galaxy.ansible.com:bad" (.noResponse "invalid port")))
      generalFrom2 (some (2, 0, 0)) ∧
    [brokenLink "3.0.0", archive "3.1.0"].map
      (accepts (sampleWorld false [brokenLink "3.0.0", archive "3.1.0"]
        (grabExcept "https://galaxy.ansible.com:bad" (.noResponse "invalid port")))
        (2, 0, 0)) = [true, true] ∧
    (Download (sampleWorld false [brokenLink "3.0.0", archive "3.1.0"]
      (grabExcept "https://galaxy.ansible.com:bad" (.noResponse "invalid port")))
      generalFrom2 "out").exit = .panicked ∧
    outcomes (Download (sampleWorld false [brokenLink "3.0.0", archive "3.1.0"]
      (grabExcept "https://galaxy.ansible.com:bad" (.noResponse "invalid port")))
      generalFrom2 "out").trace = [] ∧
    downloads (Download (sampleWorld false [brokenLink "3.0.0", archive "3.1.0"]
      (grabExcept "https://galaxy.ansible.com:bad" (.noResponse "invalid port")))
      generalFrom2 "out").trace =
      [("out/community/general", "https://galaxy.ansible.com:bad")] :=
  ⟨⟨(2, 0, 0), rfl, rfl⟩, by decide, by decide, by decide, by decide⟩

/-- C3, as stated, fails: with the constraint `>=2.0.0` and the listing
`1.0.0`, `two`, `2.0.0`, the version `2.0.0` parses and satisfies the
constraint, and yet no download is invoked for it, the run having stopped at
the unreadable version before it. -/
theorem C3_satisfying_version_after_unreadable_not_downloaded :
    (archive "2.0.0") ∈ listingUnreadable ∧
    sampleNewVersion (archive "2.0.0").Version = .ok (2, 0, 0) ∧
    sampleNewConstraint ">=2.0.0" = .ok (2, 0, 0) ∧
    sampleCheck (2, 0, 0) (2, 0, 0) = true ∧
    downloads (Download (sampleWorld false listingUnreadable grabOk)
      generalFrom2 "out").trace = [] :=
  ⟨by decide, rfl, rfl, rfl, by decide⟩

/-- C3, as amended: with a constraint present and valid, and no download made in
the run coming back with an error and no response while standard output is not
a terminal, for every record up to the first one whose version string does not
parse (every record of the listing when all parse) the download capability is
invoked for that record if and only if its parsed version satisfies the
constraint: the downloads of the run are exactly those records that satisfy it,
in listing order; each of the others gets a `skipped` outcome carrying its
version and resolved link and no download call; and the i-th outcome is for the
i-th record and is `skipped` exactly when that record does not satisfy the
constraint. -/
theorem C3_downloads_exactly_the_satisfying_versions (w : World K V) (c : Collection)
    (destination expr : String) (md : CollectionMetadata) (f : K)
    (h123 : Stored w c destination md) (hc : c.Constraints = some expr)
    (hk : w.NewConstraint expr = .ok f)
    (hs : AnsweredIn w (Download w c destination).trace) :
    downloads (Download w c destination).trace =
      ((md.Data.Collection.AllVersions.takeWhile (readable w)).filter (accepts w f)).map
        (fun r => (directoryOf w c destination, linkOf r)) ∧
    (outcomes (Download w c destination).trace).filter Line.isSkipped =
      ((md.Data.Collection.AllVersions.takeWhile (readable w)).filter
        (fun r => !accepts w f r)).map
        (fun r => Line.skipped w.isTerminal r.Version (linkOf r)) ∧
    (outcomes (Download w c destination).trace).map Line.isSkipped =
      (md.Data.Collection.AllVersions.takeWhile (readable w)).map
        (fun r => !accepts w f r) ∧
    (outcomes (Download w c destination).trace).map Line.target =
      (md.Data.Collection.AllVersions.takeWhile (readable w)).map
        (fun r => some (r.Version, linkOf r)) ∧
    ((∀ r ∈ md.Data.Collection.AllVersions, ∃ v, w.NewVersion r.Version = .ok v) →
      md.Data.Collection.AllVersions.takeWhile (readable w) =
        md.Data.Collection.AllVersions) := by
  have h4 : Filtered w c (some f) := by
    unfold Filtered; rw [hc]; exact ⟨f, hk, rfl⟩
  obtain ⟨_, h2, h3, h5, h6⟩ :=
    Download_reached w c destination md (some f) h123 h4 hs
  exact ⟨h3, h5, h6, h2,
    fun hp => (reached_all w (some f) md.Data.Collection.AllVersions (Or.inr hp)).1⟩

/-- C3, witness: through a pipe, in a world where `grab.Get` returns no response
for a link the run never requests, the listing `2.0.0`, `1.0.0`, `two` under
`>=2.0.0` (the records before the unreadable version), and scenario B (every
version string parses). -/
theorem C3_downloads_exactly_the_satisfying_versions_witness :
    (downloads (Download (sampleWorld false listingMixed
        (grabExcept "https://galaxy.ansible.com:bad" (.noResponse "invalid port")))
        generalFrom2 "out").trace =
      [("out/community/general",
        "https://galaxy.ansible.com/download/community-general-2.0.0.tar.gz")] ∧
     (outcomes (Download (sampleWorld false listingMixed
        (grabExcept "https://galaxy.ansible.com:bad" (.noResponse "invalid port")))
        generalFrom2 "out").trace).filter Line.isSkipped =
      [Line.skipped false "1.0.0"
        "https://galaxy.ansible.com/download/community-general-1.0.0.tar.gz"] ∧
     (outcomes (Download (sampleWorld false listingMixed
        (grabExcept "https://galaxy.ansible.com:bad" (.noResponse "invalid port")))
        generalFrom2 "out").trace).map Line.isSkipped = [false, true]) ∧
    (downloads (Download (sampleWorld false listingB
        (grabExcept "https://galaxy.ansible.com:bad" (.noResponse "invalid port")))
        generalFrom2 "out").trace =
      [("out/community/general",
        "https://galaxy.ansible.com/download/community-general-2.0.0.tar.gz"),
       ("out/community/general",
        "https://galaxy.ansible.com/download/community-general-2.1.0.tar.gz")] ∧
     (outcomes (Download (sampleWorld false listingB
        (grabExcept "https://galaxy.ansible.com:bad" (.noResponse "invalid port")))
        generalFrom2 "out").trace).filter Line.isSkipped =
      [Line.skipped false "1.0.0"
        "https://galaxy.ansible.com/download/community-general-1.0.0.tar.gz"] ∧
     (outcomes (Download (sampleWorld false listingB
        (grabExcept "https://galaxy.ansible.com:bad" (.noResponse "invalid port")))
        generalFrom2 "out").trace).map Line.isSkipped = [true, false, false] ∧
     listingB.takeWhile (readable (sampleWorld false listingB
        (grabExcept "https://galaxy.ansible.com:bad" (.noResponse "invalid port")))) =
      listingB) :=
  ⟨⟨(C3_downloads_exactly_the_satisfying_versions (sampleWorld false listingMixed
        (grabExcept "https://galaxy.ansible.com:bad" (.noResponse "invalid port")))
      generalFrom2 "out" ">=2.0.0" ⟨⟨⟨listingMixed⟩⟩⟩ (2, 0, 0) ⟨rfl, rfl, rfl, rfl⟩ rfl rfl
      (answeredIn_sample false listingMixed "https://galaxy.ansible.com:bad"
        (.noResponse "invalid port") _ (by decide))).1,
    (C3_downloads_exactly_the_satisfying_versions (sampleWorld false listingMixed
        (grabExcept "https://galaxy.ansible.com:bad" (.noResponse "invalid port")))
      generalFrom2 "out" ">=2.0.0" ⟨⟨⟨listingMixed⟩⟩⟩ (2, 0, 0) ⟨rfl, rfl, rfl, rfl⟩ rfl rfl
      (answeredIn_sample false listingMixed "https://galaxy.ansible.com:bad"
        (.noResponse "invalid port") _ (by decide))).2.1,
    (C3_downloads_exactly_the_satisfying_versions (sampleWorld false listingMixed
        (grabExcept "https://galaxy.ansible.com:bad" (.noResponse "invalid port")))
      generalFrom2 "out" ">=2.0.0" ⟨⟨⟨listingMixed⟩⟩⟩ (2, 0, 0) ⟨rfl, rfl, rfl, rfl⟩ rfl rfl
      (answeredIn_sample false listingMixed "https://galaxy.ansible.com:bad"
        (.noResponse "invalid port") _ (by decide))).2.2.1⟩,
   ⟨(C3_downloads_exactly_the_satisfying_versions (sampleWorld false listingB
        (grabExcept "https://galaxy.ansible.com:bad" (.noResponse "invalid port")))
      generalFrom2 "out" ">=2.0.0" ⟨⟨⟨listingB⟩⟩⟩ (2, 0, 0) ⟨rfl, rfl, rfl, rfl⟩ rfl rfl
      (answeredIn_sample false listingB "https://galaxy.ansible.com:bad"
        (.noResponse "invalid port") _ (by decide))).1,
    (C3_downloads_exactly_the_satisfying_versions (sampleWorld false listingB
        (grabExcept "https://galaxy.ansible.com:bad" (.noResponse "invalid port")))
      generalFrom2 "out" ">=2.0.0" ⟨⟨⟨listingB⟩⟩⟩ (2, 0, 0) ⟨rfl, rfl, rfl, rfl⟩ rfl rfl
      (answeredIn_sample false listingB "https://galaxy.ansible.com:bad"
        (.noResponse "invalid port") _ (by decide))).2.1,
    (C3_downloads_exactly_the_satisfying_versions (sampleWorld false listingB
        (grabExcept "https://galaxy.ansible.com:bad" (.noResponse "invalid port")))
      generalFrom2 "out" ">=2.0.0" ⟨⟨⟨listingB⟩⟩⟩ (2, 0, 0) ⟨rfl, rfl, rfl, rfl⟩ rfl rfl
      (answeredIn_sample false listingB "https://galaxy.ansible.com:bad"
        (.noResponse "invalid port") _ (by decide))).2.2.1,
    (C3_downloads_exactly_the_satisfying_versions (sampleWorld false listingB
        (grabExcept "https://galaxy.ansible.com:bad" (.noResponse "invalid port")))
      generalFrom2 "out" ">=2.0.0" ⟨⟨⟨listingB⟩⟩⟩ (2, 0, 0) ⟨rfl, rfl, rfl, rfl⟩ rfl rfl
      (answeredIn_sample false listingB "https://galaxy.ansible.com:bad"
        (.noResponse "invalid port") _ (by decide))).2.2.2.2
      (by
        intro r hr
        simp only [listingB, List.mem_cons, List.mem_singleton, List.not_mem_nil,
          or_false] at hr
        rcases hr with rfl | rfl | rfl <;> exact ⟨_, rfl⟩)⟩⟩

/-- C4, the failing input: scenario A (`community.general`, no constraint,
versions `1.0.0` and `2.0.0`) with standard output not a terminal and the
download of `1.0.0` failing without a response.  The run panics while reporting
the failure: `2.0.0` is never downloaded and `Download` does not return nil. -/
theorem C4_absent_constraint_run_stops_at_missing_response :
    (Download (sampleWorld false [brokenLink "1.0.0", archive "2.0.0"]
      (grabExcept "https://galaxy.ansible.com:bad" (.noResponse "invalid port")))
      general "out").exit = .panicked ∧
    downloads (Download (sampleWorld false [brokenLink "1.0.0", archive "2.0.0"]
      (grabExcept "https://galaxy.ansible.com:bad" (.noResponse "invalid port")))
      general "out").trace =
      [("out/community/general", "https://galaxy.ansible.com:bad")] ∧
    outcomes (Download (sampleWorld false [brokenLink "1.0.0", archive "2.0.0"]
      (grabExcept "https://galaxy.ansible.com:bad" (.noResponse "invalid port")))
      general "out").trace = [] :=
  ⟨by decide, by decide, by decide⟩

/-- C5, as stated, fails: with the constraint `not-a-range`, the run returns the
parse error, and its trace holds the registry query, made before the constraint
was parsed. -/
theorem C5_registry_queried_before_constraint_parsed :
    sampleNewConstraint "not-a-range" = .error "improper constraint: not-a-range" ∧
    (Download (sampleWorld false listingB grabOk) generalNoRange "out").exit =
      .returned (some "improper constraint: not-a-range") ∧
    (Download (sampleWorld false listingB grabOk) generalNoRange "out").trace.take 2 =
      [Event.mkdirAll "out/community/general", Event.get "community" "general"] :=
  ⟨rfl, by decide, by decide⟩

/-- C5, as amended: in every run of `Download` with a constraint that does not
parse, no download is ever invoked; the registry query, however, comes before
the parsing: whenever the run reaches the constraint parser, it returns the
parse error, and the trace splits at the (first and only) parse of the
constraint into the calls before it, which hold the one registry query, and the
calls after it, which hold none. -/
theorem C5_no_download_on_malformed_constraint (w : World K V) (c : Collection)
    (destination expr : String) (err : GoError)
    (hc : c.Constraints = some expr) (hk : w.NewConstraint expr = .error err) :
    downloads (Download w c destination).trace = [] ∧
    (Event.newConstraint expr ∈ (Download w c destination).trace →
      (Download w c destination).exit = .returned (some err) ∧
      ∃ pre post, (Download w c destination).trace = pre ++ Event.newConstraint expr :: post ∧
        queries pre = [(c.Namespace, c.Collection)] ∧ queries post = [] ∧
        Event.newConstraint expr ∉ pre ∧ Event.newConstraint expr ∉ post) := by
  cases h1 : w.MkdirAll (w.pathJoin [destination, c.Namespace, c.Collection]) with
  | some e =>
    unfold Download
    simp only [h1]
    simp [downloads]
  | none =>
    cases h2 : w.Get c.Namespace c.Collection with
    | error e =>
      unfold Download
      simp only [h1, h2]
      simp [downloads]
    | ok result =>
      cases h3 : w.Create (w.pathJoin [w.pathJoin [destination, c.Namespace, c.Collection],
        "index.json"]) with
      | some e =>
        unfold Download
        simp only [h1, h2, h3]
        simp [downloads]
      | none =>
        cases h5 : w.WriteString (w.pathJoin [w.pathJoin [destination, c.Namespace,
          c.Collection], "index.json"]) (w.ToPrettyJSON result) with
        | some e =>
          unfold Download
          simp only [h1, h2, h3, h5]
          simp [downloads, leave]
        | none =>
          unfold Download
          simp only [h1, h2, h3, h5, hc, hk]
          refine ⟨by simp [downloads, leave], fun _ => ⟨rfl,
            [Event.mkdirAll (w.pathJoin [destination, c.Namespace, c.Collection]),
             Event.get c.Namespace c.Collection,
             Event.create (w.pathJoin [w.pathJoin [destination, c.Namespace, c.Collection],
               "index.json"]),
             Event.writeString (w.pathJoin [w.pathJoin [destination, c.Namespace,
               c.Collection], "index.json"]) (w.ToPrettyJSON result)],
            [Event.slogError "error parsing constraints"
              [("namespace", c.Namespace), ("collection", c.Collection),
               ("constraints", expr), ("error", err)],
             Event.close (w.pathJoin [w.pathJoin [destination, c.Namespace, c.Collection],
               "index.json"])], ?_, ?_, ?_, ?_, ?_⟩⟩
          · simp [leave]
          · simp [queries]
          · simp [queries]
          · simp
          · simp

/-- C5, witness: the constraint `not-a-range`, whose parse the run reaches. -/
theorem C5_no_download_on_malformed_constraint_witness :
    downloads (Download (sampleWorld false listingB grabOk) generalNoRange "out").trace = [] ∧
    (Download (sampleWorld false listingB grabOk) generalNoRange "out").exit =
      .returned (some "improper constraint: not-a-range") ∧
    ∃ pre post, (Download (sampleWorld false listingB grabOk) generalNoRange "out").trace =
        pre ++ Event.newConstraint "not-a-range" :: post ∧
      queries pre = [("community", "general")] ∧ queries post = [] ∧
      Event.newConstraint "not-a-range" ∉ pre ∧ Event.newConstraint "not-a-range" ∉ post :=
  ⟨(C5_no_download_on_malformed_constraint (sampleWorld false listingB grabOk)
      generalNoRange "out" "not-a-range" "improper constraint: not-a-range" rfl rfl).1,
   (C5_no_download_on_malformed_constraint (sampleWorld false listingB grabOk)
      generalNoRange "out" "not-a-range" "improper constraint: not-a-range" rfl rfl).2
      (by decide)⟩

/-- C6: for every constraint expression the parser rejects, when the directory
creation, the metadata fetch and the write of `index.json` succeed, `Download`
returns the parse error, emits no outcome, never invokes the download
capability, and has by then made exactly these calls, in this order: create the
directory, query the registry, create `index.json`, write the fetched metadata
to it, parse the constraint (and close the file on the way out). -/
theorem C6_rejected_constraint_after_index_written (w : World K V) (c : Collection)
    (destination expr : String) (md : CollectionMetadata) (err : GoError)
    (h123 : Stored w c destination md) (hc : c.Constraints = some expr)
    (hk : w.NewConstraint expr = .error err) :
    (Download w c destination).exit = .returned (some err) ∧
    outcomes (Download w c destination).trace = [] ∧
    downloads (Download w c destination).trace = [] ∧
    calls (Download w c destination).trace =
      [Event.mkdirAll (directoryOf w c destination), Event.get c.Namespace c.Collection,
       Event.create (indexOf w c destination),
       Event.writeString (indexOf w c destination) (w.ToPrettyJSON md),
       Event.newConstraint expr, Event.close (indexOf w c destination)] := by
  obtain ⟨h1, h2, h3, h5⟩ := h123
  simp only [directoryOf, indexOf] at h1 h2 h3 h5
  unfold Download
  simp only [h1, h2, h3, h5, hc, hk]
  simp [leave, outcomes, downloads, calls, Event.isCall, directoryOf, indexOf]

/-- C6, witness: scenario C, the constraint `not-a-range`. -/
theorem C6_rejected_constraint_after_index_written_witness :
    (Download (sampleWorld true listingB grabOk) generalNoRange "out").exit =
      .returned (some "improper constraint: not-a-range") ∧
    outcomes (Download (sampleWorld true listingB grabOk) generalNoRange "out").trace = [] ∧
    downloads (Download (sampleWorld true listingB grabOk) generalNoRange "out").trace = [] ∧
    calls (Download (sampleWorld true listingB grabOk) generalNoRange "out").trace =
      [Event.mkdirAll "out/community/general", Event.get "community" "general",
       Event.create "out/community/general/index.json",
       Event.writeString "out/community/general/index.json" "1.0.0,2.0.0,2.1.0",
       Event.newConstraint "not-a-range", Event.close "out/community/general/index.json"] :=
  C6_rejected_constraint_after_index_written (sampleWorld true listingB grabOk) generalNoRange
    "out" "not-a-range" ⟨⟨⟨listingB⟩⟩⟩ "improper constraint: not-a-range"
    ⟨rfl, rfl, rfl, rfl⟩ rfl rfl

/-- C7: in every run the preparation steps occur in the fixed order create
directory, fetch metadata, create and write `index.json`, parse constraint,
each at most once; and the first step that fails is fatal: `Download` returns
exactly that step's error and calls no later capability (after the file was
created, only its deferred close follows). -/
theorem C7_preparation_in_order_and_first_failure_fatal (w : World K V) (c : Collection)
    (destination : String) :
    setups (Download w c destination).trace <+:
      [Setup.createDirectory, Setup.fetchMetadata, Setup.createIndex, Setup.writeIndex,
       Setup.parseConstraint] ∧
    (∀ err, w.MkdirAll (directoryOf w c destination) = some err →
      (Download w c destination).exit = .returned (some err) ∧
      calls (Download w c destination).trace =
        [Event.mkdirAll (directoryOf w c destination)]) ∧
    (∀ err, w.MkdirAll (directoryOf w c destination) = none →
      w.Get c.Namespace c.Collection = .error err →
      (Download w c destination).exit = .returned (some err) ∧
      calls (Download w c destination).trace =
        [Event.mkdirAll (directoryOf w c destination),
         Event.get c.Namespace c.Collection]) ∧
    (∀ md err, w.MkdirAll (directoryOf w c destination) = none →
      w.Get c.Namespace c.Collection = .ok md →
      w.Create (indexOf w c destination) = some err →
      (Download w c destination).exit = .returned (some err) ∧
      calls (Download w c destination).trace =
        [Event.mkdirAll (directoryOf w c destination), Event.get c.Namespace c.Collection,
         Event.create (indexOf w c destination)]) ∧
    (∀ md err, w.MkdirAll (directoryOf w c destination) = none →
      w.Get c.Namespace c.Collection = .ok md →
      w.Create (indexOf w c destination) = none →
      w.WriteString (indexOf w c destination) (w.ToPrettyJSON md) = some err →
      (Download w c destination).exit = .returned (some err) ∧
      calls (Download w c destination).trace =
        [Event.mkdirAll (directoryOf w c destination), Event.get c.Namespace c.Collection,
         Event.create (indexOf w c destination),
         Event.writeString (indexOf w c destination) (w.ToPrettyJSON md),
         Event.close (indexOf w c destination)]) ∧
    (∀ md expr err, Stored w c destination md → c.Constraints = some expr →
      w.NewConstraint expr = .error err →
      (Download w c destination).exit = .returned (some err) ∧
      calls (Download w c destination).trace =
        [Event.mkdirAll (directoryOf w c destination), Event.get c.Namespace c.Collection,
         Event.create (indexOf w c destination),
         Event.writeString (indexOf w c destination) (w.ToPrettyJSON md),
         Event.newConstraint expr, Event.close (indexOf w c destination)]) := by
  refine ⟨?_, ?_, ?_, ?_, ?_, ?_⟩
  · cases h1 : w.MkdirAll (w.pathJoin [destination, c.Namespace, c.Collection]) with
    | some err =>
      unfold Download
      simp only [h1, setups_append]
      simp only [setups, Event.setup, List.filterMap_cons, List.filterMap_nil,
        List.append_nil, List.cons_append, List.nil_append]
      decide
    | none =>
      cases h2 : w.Get c.Namespace c.Collection with
      | error err =>
        unfold Download
        simp only [h1, h2, setups_append]
        simp only [setups, Event.setup, List.filterMap_cons, List.filterMap_nil,
          List.append_nil, List.cons_append, List.nil_append]
        decide
      | ok result =>
        cases h3 : w.Create (w.pathJoin [w.pathJoin [destination, c.Namespace, c.Collection],
          "index.json"]) with
        | some err =>
          unfold Download
          simp only [h1, h2, h3, setups_append]
          simp only [setups, Event.setup, List.filterMap_cons, List.filterMap_nil,
            List.append_nil, List.cons_append, List.nil_append]
          decide
        | none =>
          cases h5 : w.WriteString (w.pathJoin [w.pathJoin [destination, c.Namespace,
            c.Collection], "index.json"]) (w.ToPrettyJSON result) with
          | some err =>
            unfold Download
            simp only [h1, h2, h3, h5, leave, setups_append]
            simp only [setups, Event.setup, List.filterMap_cons, List.filterMap_nil,
              List.append_nil, List.cons_append, List.nil_append]
            decide
          | none =>
            cases hc : c.Constraints with
            | none =>
              unfold Download
              simp only [h1, h2, h3, h5, hc, report, setups_versionLoop, setups_append]
              simp only [setups, Event.setup, List.filterMap_cons, List.filterMap_nil,
                List.append_nil, List.cons_append, List.nil_append]
              decide
            | some expr =>
              cases hk : w.NewConstraint expr with
              | error err =>
                unfold Download
                simp only [h1, h2, h3, h5, hc, hk, leave, setups_append]
                simp only [setups, Event.setup, List.filterMap_cons, List.filterMap_nil,
                  List.append_nil, List.cons_append, List.nil_append]
                decide
              | ok f =>
                unfold Download
                simp only [h1, h2, h3, h5, hc, hk, report, setups_versionLoop, setups_append]
                simp only [setups, Event.setup, List.filterMap_cons, List.filterMap_nil,
                  List.append_nil, List.cons_append, List.nil_append]
                decide
  · intro err h1
    simp only [directoryOf] at h1
    unfold Download
    simp only [h1]
    simp [calls, Event.isCall, directoryOf]
  · intro err h1 h2
    simp only [directoryOf] at h1
    unfold Download
    simp only [h1, h2]
    simp [calls, Event.isCall, directoryOf]
  · intro md err h1 h2 h3
    simp only [directoryOf, indexOf] at h1 h3
    unfold Download
    simp only [h1, h2, h3]
    simp [calls, Event.isCall, directoryOf, indexOf]
  · intro md err h1 h2 h3 h5
    simp only [directoryOf, indexOf] at h1 h3 h5
    unfold Download
    simp only [h1, h2, h3, h5]
    simp [leave, calls, Event.isCall, directoryOf, indexOf]
  · intro md expr err h123 hc hk
    obtain ⟨h1, h2, h3, h5⟩ := h123
    simp only [directoryOf, indexOf] at h1 h2 h3 h5
    unfold Download
    simp only [h1, h2, h3, h5, hc, hk]
    simp [leave, calls, Event.isCall, directoryOf, indexOf]

/-- C7, witness: one world per failing step. -/
theorem C7_preparation_in_order_and_first_failure_fatal_witness :
    ((Download (brokenWorld .createDirectory) generalFrom2 "out").exit =
        .returned (some "permission denied") ∧
      calls (Download (brokenWorld .createDirectory) generalFrom2 "out").trace =
        [Event.mkdirAll "out/community/general"]) ∧
    ((Download (brokenWorld .fetchMetadata) generalFrom2 "out").exit =
        .returned (some "connection refused") ∧
      calls (Download (brokenWorld .fetchMetadata) generalFrom2 "out").trace =
        [Event.mkdirAll "out/community/general", Event.get "community" "general"]) ∧
    ((Download (brokenWorld .createIndex) generalFrom2 "out").exit =
        .returned (some "read-only file system") ∧
      calls (Download (brokenWorld .createIndex) generalFrom2 "out").trace =
        [Event.mkdirAll "out/community/general", Event.get "community" "general",
         Event.create "out/community/general/index.json"]) ∧
    ((Download (brokenWorld .writeIndex) generalFrom2 "out").exit =
        .returned (some "no space left on device") ∧
      calls (Download (brokenWorld .writeIndex) generalFrom2 "out").trace =
        [Event.mkdirAll "out/community/general", Event.get "community" "general",
         Event.create "out/community/general/index.json",
         Event.writeString "out/community/general/index.json" "[]",
         Event.close "out/community/general/index.json"]) ∧
    ((Download (brokenWorld .parseConstraint) generalNoRange "out").exit =
        .returned (some "improper constraint: not-a-range") ∧
      calls (Download (brokenWorld .parseConstraint) generalNoRange "out").trace =
        [Event.mkdirAll "out/community/general", Event.get "community" "general",
         Event.create "out/community/general/index.json",
         Event.writeString "out/community/general/index.json" "[]",
         Event.newConstraint "not-a-range",
         Event.close "out/community/general/index.json"]) :=
  ⟨(C7_preparation_in_order_and_first_failure_fatal (brokenWorld .createDirectory)
      generalFrom2 "out").2.1 "permission denied" rfl,
   (C7_preparation_in_order_and_first_failure_fatal (brokenWorld .fetchMetadata)
      generalFrom2 "out").2.2.1 "connection refused" rfl rfl,
   (C7_preparation_in_order_and_first_failure_fatal (brokenWorld .createIndex)
      generalFrom2 "out").2.2.2.1 ⟨⟨⟨[]⟩⟩⟩ "read-only file system" rfl rfl rfl,
   (C7_preparation_in_order_and_first_failure_fatal (brokenWorld .writeIndex)
      generalFrom2 "out").2.2.2.2.1 ⟨⟨⟨[]⟩⟩⟩ "no space left on device" rfl rfl rfl rfl,
   (C7_preparation_in_order_and_first_failure_fatal (brokenWorld .parseConstraint)
      generalNoRange "out").2.2.2.2.2 ⟨⟨⟨[]⟩⟩⟩ "not-a-range"
      "improper constraint: not-a-range" ⟨rfl, rfl, rfl, rfl⟩ rfl rfl⟩

/-- C8, the failing input: standard output is not a terminal, the constraint is
`>=2.0.0`, the first record `2.0.0` is accepted and its download fails without a
response, and the second record has the unreadable version `two`.  The run
panics at the first record: the version `two` is never handed to the parser and
`Download` does not return its parse error. -/
theorem C8_unreadable_version_after_missing_response_not_reported :
    sampleNewVersion "two" = .error "Invalid Semantic Version" ∧
    (Download (sampleWorld false [brokenLink "2.0.0", archive "two"]
      (grabExcept "https://galaxy.ansible.com:bad" (.noResponse "invalid port")))
      generalFrom2 "out").exit = .panicked ∧
    Event.newVersion "two" ∉ (Download (sampleWorld false [brokenLink "2.0.0", archive "two"]
      (grabExcept "https://galaxy.ansible.com:bad" (.noResponse "invalid port")))
      generalFrom2 "out").trace :=
  ⟨rfl, by decide, by decide⟩

/-- C9, the failing input: the download of `3.0.0` fails after 512 bytes and
3 ms with the error `connection reset by peer`.  In a terminal the outcome line
carries the version, the link and the error, but neither byte count nor
duration; outside a terminal it carries the version, the link, the byte count
and the duration, but not the error. -/
theorem C9_failed_outcome_lacks_a_field :
    outcomes (Download (sampleWorld true [archive "3.0.0"]
      (grabExcept "https://galaxy.ansible.com/download/community-general-3.0.0.tar.gz"
        (.failed ⟨512, 3000000⟩ "connection reset by peer")))
      general "out").trace =
      [Line.failedError "3.0.0"
        "https://galaxy.ansible.com/download/community-general-3.0.0.tar.gz"
        "connection reset by peer"] ∧
    outcomes (Download (sampleWorld false [archive "3.0.0"]
      (grabExcept "https://galaxy.ansible.com/download/community-general-3.0.0.tar.gz"
        (.failed ⟨512, 3000000⟩ "connection reset by peer")))
      general "out").trace =
      [Line.failedStats "3.0.0"
        "https://galaxy.ansible.com/download/community-general-3.0.0.tar.gz"
        512 3000000] :=
  ⟨by decide, by decide⟩

/-- C10, the divergence: when standard output is not a terminal, steps 1 to 3
succeed, there is no constraint, and `grab.Get` returns an error and no response
for the first record of the listing, `Download` panics on the missing response:
it emits no outcome, attempts no further download and does not return. -/
theorem C10_missing_response_is_read (w : World K V) (c : Collection)
    (destination : String) (md : CollectionMetadata) (r : VersionRecord)
    (rest : List VersionRecord) (err : GoError)
    (h123 : Stored w c destination md) (hc : c.Constraints = none)
    (hl : md.Data.Collection.AllVersions = r :: rest)
    (ht : w.isTerminal = false)
    (hg : ∀ tr, w.grabGet tr (directoryOf w c destination) (linkOf r) = .noResponse err) :
    (Download w c destination).exit = .panicked ∧
    outcomes (Download w c destination).trace = [] ∧
    downloads (Download w c destination).trace =
      [(directoryOf w c destination, linkOf r)] := by
  have h4 : Filtered w c none := by
    unfold Filtered; rw [hc]
  rw [Download_report w c destination md none h123 h4]
  have hq := setupTrace_quiet w c destination md
  have hg1 : ∀ tr, w.grabGet tr (directoryOf w c destination)
      ("https://galaxy.ansible.com" ++ r.DownloadURL) = .noResponse err := hg
  have hrun : report w c (directoryOf w c destination) (indexOf w c destination) none md
      (setupTrace w c destination md) =
      leave (setupTrace w c destination md ++
        [Event.printf (.header w.isTerminal c.Namespace c.Collection
          (directoryOf w c destination))] ++
        [Event.grabGet (directoryOf w c destination) (linkOf r)] ++
        [Event.slogError "error downloading collection"
          [("namespace", c.Namespace), ("collection", c.Collection), ("error", err)]])
        (indexOf w c destination) .panicked := by
    unfold report
    rw [hl]
    simp [versionLoop, loopBody, grabStep, hg1, ht, linkOf]
  rw [hrun]
  refine ⟨rfl, ?_, ?_⟩
  · rw [outcomes_leave]
    simp only [outcomes_append, hq.1]
    simp [outcomes, Line.isOutcome]
  · rw [downloads_leave]
    simp only [downloads_append, hq.2]
    simp [downloads]

/-- C10, witness: a listing whose first link cannot be turned into a request. -/
theorem C10_missing_response_is_read_witness :
    (Download (sampleWorld false [brokenLink "1.0.0", archive "2.0.0"]
      (grabExcept "https://galaxy.ansible.com:bad" (.noResponse "invalid port")))
      general "store").exit = .panicked ∧
    outcomes (Download (sampleWorld false [brokenLink "1.0.0", archive "2.0.0"]
      (grabExcept "https://galaxy.ansible.com:bad" (.noResponse "invalid port")))
      general "store").trace = [] ∧
    downloads (Download (sampleWorld false [brokenLink "1.0.0", archive "2.0.0"]
      (grabExcept "https://galaxy.ansible.com:bad" (.noResponse "invalid port")))
      general "store").trace =
      [("store/community/general", "https://galaxy.ansible.com:bad")] :=
  C10_missing_response_is_read
    (sampleWorld false [brokenLink "1.0.0", archive "2.0.0"]
      (grabExcept "https://galaxy.ansible.com:bad" (.noResponse "invalid port")))
    general "store" ⟨⟨⟨[brokenLink "1.0.0", archive "2.0.0"]⟩⟩⟩ (brokenLink "1.0.0")
    [archive "2.0.0"] "invalid port" ⟨rfl, rfl, rfl, rfl⟩ rfl rfl rfl (fun _ => rfl)

end GalaxyGrabber
